import Mathlib

/-
  Shallow embedding of MHAG (src/mhag.py), a host-availability monitor.
  Pure fragments of the Python are translated into executable Lean
  definitions; Python exceptions are modelled by the Except monad
  (the string names the exception class).
-/

namespace MHAG

/- ----------------------------------------------------------------- -/
/- Character classes of the regular expressions in parse_ping.       -/
/- ----------------------------------------------------------------- -/

/-- Characters matched by the regex class backslash-s (whitespace),
restricted to ASCII, which is all that ping output contains. -/
def isSpaceCh (c : Char) : Bool :=
  c = ' ' || c = '\t' || c = '\n' || c = '\r' || c = '\x0b' || c = '\x0c'

/-- Characters matched by the regex digit class. -/
def isDigitCh (c : Char) : Bool := c.isDigit

/-- Characters matched by the regex word class (ASCII fragment:
letters, digits and underscore). -/
def isWordCh (c : Char) : Bool := c.isAlphanum || c = '_'

/-- The character class combining word characters, dash and dot,
used for host names in the first token of parse_ping. -/
def isHostCh (c : Char) : Bool := isWordCh c || c = '-' || c = '.'

/- ----------------------------------------------------------------- -/
/- Deterministic matchers for the six regex alternatives.            -/
/- Each alternative of the token_specification list in parse_ping    -/
/- is a regex in which every greedy repetition is followed by a      -/
/- character disjoint from its class, so greedy matching without     -/
/- backtracking is exact.                                            -/
/- ----------------------------------------------------------------- -/

/-- Take a nonempty maximal run of characters satisfying p. -/
def span1 (p : Char → Bool) (l : List Char) : Option (List Char × List Char) :=
  match l.span p with
  | (t, r) => if t.isEmpty then none else some (t, r)

/-- Match a literal token, returning the rest of the input. -/
def litTok (pat l : List Char) : Option (List Char) :=
  if pat.isPrefixOf l then some (l.drop pat.length) else none

/-- One tuple of the list returned by re.findall on the combined
pattern: nine capture groups (the whole-match group 0 is unused by the
code and omitted); a group not belonging to the matched alternative is
the empty string, exactly as in Python. -/
structure PMatch where
  g1 : String := ""
  g2 : String := ""
  g3 : String := ""
  g4 : String := ""
  g5 : String := ""
  g6 : String := ""
  g7 : String := ""
  g8 : String := ""
  g9 : String := ""
deriving Repr, DecidableEq, Inhabited

/-- Alternative 1: PING, whitespace, host name (group 1), whitespace,
an opening parenthesis. -/
def matchHost (l : List Char) : Option (PMatch × List Char) := do
  let l ← litTok ("PING".toList) l
  let (_, l) ← span1 isSpaceCh l
  let (h, l) ← span1 isHostCh l
  let (_, l) ← span1 isSpaceCh l
  let l ← litTok ['('] l
  some ({ g1 := String.mk h }, l)

/-- Alternative 2: a dotted-quad IP address (group 2). -/
def matchIP (l : List Char) : Option (PMatch × List Char) := do
  let (a, l) ← span1 isDigitCh l
  let l ← litTok ['.'] l
  let (b, l) ← span1 isDigitCh l
  let l ← litTok ['.'] l
  let (c, l) ← span1 isDigitCh l
  let l ← litTok ['.'] l
  let (d, l) ← span1 isDigitCh l
  some ({ g2 := String.mk (a ++ '.' :: b ++ '.' :: c ++ '.' :: d) }, l)

/-- Alternative 3: digits (group 3), whitespace, packets, whitespace,
transmitted and a comma. -/
def matchTx (l : List Char) : Option (PMatch × List Char) := do
  let (n, l) ← span1 isDigitCh l
  let (_, l) ← span1 isSpaceCh l
  let l ← litTok ("packets".toList) l
  let (_, l) ← span1 isSpaceCh l
  let l ← litTok ("transmitted,".toList) l
  some ({ g3 := String.mk n }, l)

/-- Alternative 4: digits (group 4), whitespace, received and a comma. -/
def matchRx (l : List Char) : Option (PMatch × List Char) := do
  let (n, l) ← span1 isDigitCh l
  let (_, l) ← span1 isSpaceCh l
  let l ← litTok ("received,".toList) l
  some ({ g4 := String.mk n }, l)

/-- Alternative 5: digits (group 5), a percent sign, whitespace,
packet, whitespace, loss and a comma. -/
def matchLoss (l : List Char) : Option (PMatch × List Char) := do
  let (n, l) ← span1 isDigitCh l
  let l ← litTok ['%'] l
  let (_, l) ← span1 isSpaceCh l
  let l ← litTok ("packet".toList) l
  let (_, l) ← span1 isSpaceCh l
  let l ← litTok ("loss,".toList) l
  some ({ g5 := String.mk n }, l)

/-- A decimal number of the form digits, dot, digits. -/
def matchDec (l : List Char) : Option (List Char × List Char) := do
  let (a, l) ← span1 isDigitCh l
  let l ← litTok ['.'] l
  let (b, l) ← span1 isDigitCh l
  some (a ++ '.' :: b, l)

/-- Alternative 6: four slash-separated decimals (groups 6 to 9),
the rtt min/avg/max/mdev statistics. -/
def matchRtt (l : List Char) : Option (PMatch × List Char) := do
  let (a, l) ← matchDec l
  let l ← litTok ['/'] l
  let (b, l) ← matchDec l
  let l ← litTok ['/'] l
  let (c, l) ← matchDec l
  let l ← litTok ['/'] l
  let (d, l) ← matchDec l
  some ({ g6 := String.mk a, g7 := String.mk b,
          g8 := String.mk c, g9 := String.mk d }, l)

/-- The alternation: alternatives are tried in the order they are
joined in token_specification. -/
def tryAlts (l : List Char) : Option (PMatch × List Char) :=
  (matchHost l).orElse fun _ =>
  (matchIP l).orElse fun _ =>
  (matchTx l).orElse fun _ =>
  (matchRx l).orElse fun _ =>
  (matchLoss l).orElse fun _ =>
  matchRtt l

/-- re.findall scanning: leftmost non-overlapping matches, advancing by
one character when no alternative matches at the current position.
Every alternative consumes at least one character, so fuel equal to the
input length suffices. -/
def findAllAux : Nat → List Char → List PMatch
  | 0, _ => []
  | _ + 1, [] => []
  | fuel + 1, l@(_ :: rest) =>
    match tryAlts l with
    | some (m, l') => m :: findAllAux fuel l'
    | none => findAllAux fuel rest

/-- tokens_re.findall(out) of parse_ping. -/
def findAll (s : String) : List PMatch :=
  findAllAux (s.length + 1) s.toList

/-- Substring test on lists of characters (the Python in operator on
strings). -/
def hasSub (pat : List Char) : List Char → Bool
  | [] => pat.isPrefixOf ([] : List Char)
  | c :: rest => pat.isPrefixOf (c :: rest) || hasSub pat rest

/-- The Python expression pat in s for strings. -/
def hasSubstr (s pat : String) : Bool := hasSub pat.toList s.toList

/- ----------------------------------------------------------------- -/
/- Numeric conversions used by parse_ping.                           -/
/- ----------------------------------------------------------------- -/

/-- Numeric value of a digit string. -/
def digitsVal (l : List Char) : Nat :=
  l.foldl (fun a c => a * 10 + (c.toNat - 48)) 0

/-- The Python int() constructor on the strings it can receive here:
an optional sign followed by at least one digit succeeds, anything
else (in particular the empty string) raises ValueError. -/
def pyInt (s : String) : Except String Int :=
  match s.toList with
  | '-' :: rest =>
    if rest ≠ [] ∧ rest.all Char.isDigit then .ok (-(digitsVal rest : Int))
    else .error "ValueError"
  | '+' :: rest =>
    if rest ≠ [] ∧ rest.all Char.isDigit then .ok (digitsVal rest : Int)
    else .error "ValueError"
  | cs =>
    if cs ≠ [] ∧ cs.all Char.isDigit then .ok (digitsVal cs : Int)
    else .error "ValueError"

/-- The Python float() constructor on the strings it can receive here:
regex group 6 to 9 values are either empty (ValueError) or of the form
digits, dot, digits, whose exact rational value is returned (the float
read of such short decimal literals rounds to the same integer as the
exact value does). -/
def pyFloatDec (s : String) : Except String ℚ :=
  match span1 isDigitCh s.toList with
  | none => .error "ValueError"
  | some (a, r) =>
    match r with
    | '.' :: r' =>
      match span1 isDigitCh r' with
      | some (b, []) =>
        .ok ((digitsVal a * 10 ^ b.length + digitsVal b : ℕ) / (10 ^ b.length : ℕ) : ℚ)
      | _ => .error "ValueError"
    | _ => .error "ValueError"

/-- The Python round() builtin on one argument: round half to even. -/
def pyRound (q : ℚ) : ℤ :=
  let f := ⌊q⌋
  let r := q - f
  if r < 1 / 2 then f
  else if 1 / 2 < r then f + 1
  else if Int.emod f 2 = 0 then f else f + 1

/- ----------------------------------------------------------------- -/
/- The per-target dictionary entry.                                  -/
/- ----------------------------------------------------------------- -/

/-- One entry of the per-target dictionaries (cfg_dict / pol_dict):
a JSON object of string fields.  FQDN, COUNT and LASTFAIL are present
from the configuration; the remaining keys may be absent, which an
Option models (a none field read by the code raises KeyError). -/
structure TRec where
  fqdn : String
  count : String
  lastfail : String
  lastpoll : Option String := none
  uptime : Option String := none
  ip : Option String := none
  tx : Option String := none
  rx : Option String := none
  avail : Option String := none
  minrtt : Option String := none
  avgrtt : Option String := none
  maxrtt : Option String := none
  mdev : Option String := none
deriving Repr, DecidableEq, Inhabited

/-- The dictionary update shared verbatim by the stderr branch and the
no-match branch of parse_ping: availability 0, the UNKNOWN sentinel in
IP, TX, RX and all four RTT fields, LASTFAIL advanced to now. -/
def unknownFail (r : TRec) (now : String) : TRec :=
  { r with ip := some "UNKNOWN", tx := some "UNKNOWN", rx := some "UNKNOWN",
           avail := some "0", lastfail := now,
           minrtt := some "UNKNOWN", avgrtt := some "UNKNOWN",
           maxrtt := some "UNKNOWN", mdev := some "UNKNOWN" }

/-- Python list indexing: out of range raises IndexError. -/
def idx (l : List PMatch) (n : Nat) : Except String PMatch :=
  match l.get? n with
  | some m => .ok m
  | none => .error "IndexError"

/-- parse_ping from src/mhag.py.  Arguments: the target's pol_dict
entry, the captured stdout and stderr of the ping subprocess, and the
value of the global STR_DATETIME (the cycle timestamp).  The result is
the updated entry, or the Python exception that propagates out of the
function (aborting the whole run, since no caller catches it). -/
def parse_ping (r : TRec) (out err now : String) : Except String TRec :=
  if err ≠ "" then
    .ok (unknownFail r now)
  else if hasSubstr out "PING" then
    let ms := findAll out
    if ms ≠ [] then do
      let m1 ← idx ms 1
      let m2 ← idx ms 2
      let m3 ← idx ms 3
      let m4 ← idx ms 4
      let loss ← pyInt m4.g5
      let avail := toString (100 - loss)
      let r1 : TRec :=
        { r with ip := some m1.g2, tx := some m2.g3, rx := some m3.g4,
                 avail := some avail }
      if avail = "0" then
        .ok { r1 with minrtt := some "UNKNOWN", avgrtt := some "UNKNOWN",
                      maxrtt := some "UNKNOWN", mdev := some "UNKNOWN",
                      lastfail := now }
      else do
        let m5 ← idx ms 5
        let a ← pyFloatDec m5.g6
        let b ← pyFloatDec m5.g7
        let c ← pyFloatDec m5.g8
        let d ← pyFloatDec m5.g9
        .ok { r1 with minrtt := some (toString (pyRound a)),
                      avgrtt := some (toString (pyRound b)),
                      maxrtt := some (toString (pyRound c)),
                      mdev := some (toString (pyRound d)) }
    else
      .ok (unknownFail r now)
  else
    .ok r

/- ----------------------------------------------------------------- -/
/- str.replace and the database file name.                           -/
/- ----------------------------------------------------------------- -/

/-- The Python str.replace method: every non-overlapping occurrence of
old is replaced by new, scanning left to right.  Every use in the
source has a nonempty old, so one unit of fuel per input character
suffices. -/
def replaceAux (old new : List Char) : Nat → List Char → List Char
  | 0, l => l
  | _ + 1, [] => []
  | fuel + 1, c :: rest =>
    if old.isPrefixOf (c :: rest) then
      new ++ replaceAux old new fuel ((c :: rest).drop old.length)
    else
      c :: replaceAux old new fuel rest

/-- s.replace(old, new) for strings. -/
def pyReplace (s old new : String) : String :=
  String.mk (replaceAux old.toList new.toList s.length s.toList)

/-- ARGS.dbfile = ARGS.cfgfile.replace('json', 'rrd') from main (the
same expression recurs in update_database). -/
def deriveDbfile (cfgfile : String) : String :=
  pyReplace cfgfile "json" "rrd"

/- ----------------------------------------------------------------- -/
/- update_database command assembly.                                 -/
/- ----------------------------------------------------------------- -/

/-- re.sub(colon-at-end, rep, cmd): if the command ends in a colon,
that colon is replaced by rep. -/
def subColonWith (rep l : List Char) : List Char :=
  if l.getLast? = some ':' then l.dropLast ++ rep else l

/-- Reading a key of a target dictionary: an absent key raises
KeyError. -/
def keyGet (v : Option String) : Except String String :=
  match v with
  | some s => .ok s
  | none => .error "KeyError"

/-- The path of /usr/bin/rrdtool (the RRDTOOL global). -/
def RRDTOOL : String := "/usr/bin/rrdtool"

/-- The command string built by update_database, over the pol_dict
entries listed in sorted key order.  Arguments: the target list, the
value of ARGS.cfgfile and of the global STR_EPOCTIME.  A missing
AVGRTT or AVAIL key raises KeyError (aborting the run, since no caller
catches it); the subprocess invocation of the finished command is
outside the model. -/
def update_database_cmd (pol : List (String × TRec)) (cfgfile epoch : String) :
    Except String (List Char) := do
  let cmd0 := (RRDTOOL ++ " update " ++ deriveDbfile cfgfile ++ " --template ").toList
  let cmd1 := pol.foldl
    (fun acc p => acc ++ p.1.toList ++ "-AVRTT:".toList ++ p.1.toList ++ "-AVAIL:".toList)
    cmd0
  let cmd2 := subColonWith [' '] cmd1
  let cmd3 := cmd2 ++ epoch.toList ++ [':']
  let cmd4 ← pol.foldlM
    (fun acc p => do
      let ag ← keyGet p.2.avgrtt
      let av ← keyGet p.2.avail
      pure (acc ++ ag.toList ++ [':'] ++ av.toList ++ [':']))
    cmd3
  pure (subColonWith [] cmd4)

/- ----------------------------------------------------------------- -/
/- Datetimes and calc_uptime.                                        -/
/- A naive datetime is modelled by its count of microseconds from    -/
/- the epoch of the proleptic Gregorian calendar used by Python's    -/
/- datetime module (an integer, so dates before 1970 stay exact).    -/
/- ----------------------------------------------------------------- -/

/-- Day number of a proleptic Gregorian calendar date, with day 0 at
1970-01-01 (the standard civil-from-days correspondence). -/
def daysFromCivil (y m d : ℤ) : ℤ :=
  let y' := y - (if m ≤ 2 then 1 else 0)
  let era := Int.ediv y' 400
  let yoe := y' - era * 400
  let mp := Int.emod (m + 9) 12
  let doy := Int.ediv (153 * mp + 2) 5 + d - 1
  let doe := yoe * 365 + Int.ediv yoe 4 - Int.ediv yoe 100 + doy
  era * 146097 + doe - 719468

/-- Days of each month, as validated by datetime. -/
def daysInMonth (y m : ℤ) : ℤ :=
  if m = 2 then
    if Int.emod y 4 = 0 ∧ (Int.emod y 100 ≠ 0 ∨ Int.emod y 400 = 0) then 29 else 28
  else if m = 4 ∨ m = 6 ∨ m = 9 ∨ m = 11 then 30
  else 31

/-- A digit run followed by a one-character separator. -/
def numThen (sep : Char) (l : List Char) : Option (List Char × List Char) := do
  let (n, l1) ← span1 isDigitCh l
  let l2 ← litTok [sep] l1
  some (n, l2)

/-- datetime.strptime(s, the year-month-day hour:minute:second.micro
format) from calc_uptime, returning the datetime as microseconds, or
none for the ValueError Python raises on any string not of that shape.
The fraction field accepts one to six digits, scaled to microseconds
as the strptime micro directive does. -/
def strptimeLastfail (s : String) : Option ℤ := do
  let (ys, l) ← numThen '-' s.toList
  let (mos, l) ← numThen '-' l
  let (ds, l) ← numThen ' ' l
  let (hs, l) ← numThen ':' l
  let (mis, l) ← numThen ':' l
  let (ss, l) ← numThen '.' l
  let (fs, l) ← span1 isDigitCh l
  if l = [] ∧ fs.length ≤ 6 ∧ ys.length = 4 then
    let y : ℤ := digitsVal ys
    let mo : ℤ := digitsVal mos
    let d : ℤ := digitsVal ds
    let h : ℤ := digitsVal hs
    let mi : ℤ := digitsVal mis
    let sec : ℤ := digitsVal ss
    let micro : ℤ := digitsVal fs * 10 ^ (6 - fs.length)
    if 1 ≤ mo ∧ mo ≤ 12 ∧ 1 ≤ d ∧ d ≤ daysInMonth y mo ∧
        h ≤ 23 ∧ mi ≤ 59 ∧ sec ≤ 59 then
      some (((daysFromCivil y mo d * 24 + h) * 60 + mi) * 60 * 1000000
            + sec * 1000000 + micro)
    else none
  else none

/-- Python divmod on (nonnegative real) numbers: floor quotient and
remainder. -/
def qDivMod (a b : ℚ) : ℚ × ℚ :=
  ((⌊a / b⌋ : ℚ), a - b * (⌊a / b⌋ : ℚ))

/-- Two-digit zero padding. -/
def pad2 (n : ℕ) : String :=
  if n < 10 then "0" ++ toString n else toString n

/-- datetime.strftime of the hour:minute:second directives, of a
datetime given in microseconds. -/
def fmtHMS (t : ℤ) : String :=
  let s : ℕ := (Int.emod (Int.ediv t 1000000) 86400).toNat
  pad2 (s / 3600) ++ ":" ++ pad2 (s % 3600 / 60) ++ ":" ++ pad2 (s % 60)

/-- The string computed for one target by calc_uptime, given the
datetime.now() value (microseconds) and the parsed LASTFAIL datetime.
delta.total_seconds() is the absolute difference in seconds; the
successive divmod calls split it into units of 60, 60 and 12, and
nonzero unit values are appended, rounded, with the trailing period.
(The two datetime.now() calls inside the function are microseconds
apart; they are modelled as one value.) -/
def calc_uptime_str (now lastfail : ℤ) : String :=
  let head := fmtHMS now ++ " UP (since last ping fail) for "
  let delta : ℚ := ((now - lastfail).natAbs : ℚ) / 1000000
  let p1 := qDivMod delta 60
  let mins0 := p1.1
  let secs := p1.2
  let p2 := qDivMod mins0 60
  let hours0 := p2.1
  let mins := p2.2
  let p3 := qDivMod hours0 12
  let days := p3.1
  let hours := p3.2
  head
    ++ (if 0 < days then toString (pyRound days) ++ " days, " else "")
    ++ (if 0 < hours then toString (pyRound hours) ++ " hours, " else "")
    ++ (if 0 < mins then toString (pyRound mins) ++ " minutes, " else "")
    ++ (if 0 < secs then toString (pyRound secs) ++ " seconds" else "")
    ++ "."

/-- The persisted-field effect of one full cycle on one target's
cfg_dict entry, with identical external-tool outputs assumed to parse:
ping output and stderr never touch cfg_dict (parse_ping writes only
the transient pol_dict copy), ping_hosts stores STR_DATETIME in
LASTPOLL, and calc_uptime recomputes UPTIME from datetime.now() and
the stored LASTFAIL (raising ValueError if LASTFAIL does not parse);
main then writes these fields to the configuration file unchanged
otherwise. -/
def cycle_persist (r : TRec) (nowStr : String) (now : ℤ) : Except String TRec :=
  match strptimeLastfail r.lastfail with
  | none => .error "ValueError"
  | some lf =>
    .ok { r with lastpoll := some nowStr,
                 uptime := some (calc_uptime_str now lf) }

/- ----------------------------------------------------------------- -/
/- Configuration serialization.                                      -/
/- The configuration file holds json.dumps([cfg_dict, gfxprm_sort]); -/
/- read_config feeds json.load(cfile) back into the two dicts.  The  -/
/- JSON value is modelled as a tree; the string rendering and        -/
/- reparsing json.dumps / json.load perform between the two trees is -/
/- faithful for this shape of data and is not re-modelled.  Dicts    -/
/- are association lists in insertion order (Python dicts preserve   -/
/- it); every target and interval attribute in the file is a string. -/
/- ----------------------------------------------------------------- -/

/-- A JSON value of the shapes the configuration file uses. -/
inductive J where
  | s : String → J
  | arr : List J → J
  | obj : List (String × J) → J

/-- An attribute dictionary as a JSON object. -/
def encodeAttrs (a : List (String × String)) : J :=
  .obj (a.map fun p => (p.1, .s p.2))

/-- Reading an attribute dictionary object back, field by field. -/
def decAttrList : List (String × J) → Option (List (String × String))
  | [] => some []
  | p :: rest =>
    match p.2 with
    | .s v => (decAttrList rest).map (fun a => (p.1, v) :: a)
    | _ => none

/-- Reading an attribute dictionary back. -/
def decodeAttrs : J → Option (List (String × String))
  | .obj l => decAttrList l
  | _ => none

/-- A dict-of-dicts (cfg_dict, or the sorted gfx dict) as JSON. -/
def encodeSection (t : List (String × List (String × String))) : J :=
  .obj (t.map fun p => (p.1, encodeAttrs p.2))

/-- Reading a dict-of-dicts object back, entry by entry. -/
def decSecList : List (String × J) → Option (List (String × List (String × String)))
  | [] => some []
  | p :: rest =>
    match decodeAttrs p.2 with
    | some a => (decSecList rest).map (fun t => (p.1, a) :: t)
    | none => none

/-- Reading a dict-of-dicts back. -/
def decodeSection : J → Option (List (String × List (String × String)))
  | .obj l => decSecList l
  | _ => none

/-- x[1]['step'] as used by the sort key lambda: a missing key raises
KeyError, and int() of its value may raise ValueError. -/
def stepKey (g : List (String × String)) : Except String Int := do
  let v ← match g.lookup "step" with
          | some v => Except.ok v
          | none => Except.error "KeyError"
  pyInt v

/-- Insertion into a list sorted weakly by first component. -/
def insertByFst {α : Type} (a : Int × α) : List (Int × α) → List (Int × α)
  | [] => [a]
  | b :: l => if a.1 ≤ b.1 then a :: b :: l else b :: insertByFst a l

/-- A stable ascending sort by first component, the behaviour of the
Python sorted builtin with the int-of-step key. -/
def sortByFst {α : Type} : List (Int × α) → List (Int × α)
  | [] => []
  | a :: l => insertByFst a (sortByFst l)

/-- The sort key computed for every entry in dictionary order
(propagating int() and lookup exceptions as sorted would). -/
def keyGfx : List (String × List (String × String)) →
    Except String (List (Int × (String × List (String × String))))
  | [] => .ok []
  | p :: rest => do
    let k ← stepKey p.2
    let l ← keyGfx rest
    .ok ((k, p) :: l)

/-- OrderedDict(sorted(gfxdic.items(), by int of the step field)):
the key is computed for every entry and the entries are sorted stably
and ascending by it. -/
def gfxprm_sort (gfx : List (String × List (String × String))) :
    Except String (List (String × List (String × String))) := do
  let keyed ← keyGfx gfx
  pure ((sortByFst keyed).map Prod.snd)

/-- The JSON value main writes to the configuration file:
json.dumps([cfg_dict, gfxprm_sort]). -/
def write_config_json (cfg gfx : List (String × List (String × String))) :
    Except String J := do
  let gs ← gfxprm_sort gfx
  pure (.arr [encodeSection cfg, encodeSection gs])

/-- read_config on an existing file: json.load yields listofdic, and
cfgdic and gfxdic take over listofdic[0] and listofdic[1]. -/
def read_config_json (j : J) :
    Option (List (String × List (String × String)) ×
            List (String × List (String × String))) :=
  match j with
  | .arr [a, b] => do
    let ca ← decodeSection a
    let gb ← decodeSection b
    some (ca, gb)
  | _ => none

/- ----------------------------------------------------------------- -/
/- Helper lemmas: evaluation of parse_ping on its four code paths.   -/
/- ----------------------------------------------------------------- -/

theorem ebind_ok {α β : Type} (a : α) (f : α → Except String β) :
    (Except.ok a >>= f) = f a := rfl

theorem idx_eq {l : List PMatch} {n : Nat} {m : PMatch} (h : l.get? n = some m) :
    idx l n = .ok m := by
  simp only [idx]
  rw [h]

/-- Path 1: nonempty stderr. -/
theorem parse_ping_err (r : TRec) (out err now : String) (h : err ≠ "") :
    parse_ping r out err now = .ok (unknownFail r now) := by
  simp [parse_ping, h]

/-- Path 4: empty stderr, stdout without the PING marker: the entry is
returned untouched (no branch of the function applies). -/
theorem parse_ping_noping (r : TRec) (out now : String)
    (h : hasSubstr out "PING" = false) :
    parse_ping r out "" now = .ok r := by
  simp [parse_ping, h]

/-- Path 3: the PING marker present but the pattern matches nothing. -/
theorem parse_ping_nomatch (r : TRec) (out now : String)
    (hping : hasSubstr out "PING" = true) (hm : findAll out = []) :
    parse_ping r out "" now = .ok (unknownFail r now) := by
  simp [parse_ping, hping, hm]

/-- Path 2a: a match list whose entries 1 to 4 are in the expected
positions with a loss of one hundred percent. -/
theorem parse_ping_loss100 (r : TRec) (out now : String) (ms : List PMatch)
    (m1 m2 m3 m4 : PMatch)
    (hping : hasSubstr out "PING" = true) (hms : findAll out = ms)
    (h1 : ms.get? 1 = some m1) (h2 : ms.get? 2 = some m2)
    (h3 : ms.get? 3 = some m3) (h4 : ms.get? 4 = some m4)
    (hloss : pyInt m4.g5 = .ok 100) :
    parse_ping r out "" now =
      .ok { r with ip := some m1.g2, tx := some m2.g3, rx := some m3.g4,
                   avail := some "0", lastfail := now,
                   minrtt := some "UNKNOWN", avgrtt := some "UNKNOWN",
                   maxrtt := some "UNKNOWN", mdev := some "UNKNOWN" } := by
  have hne : ms ≠ [] := by
    intro h
    rw [h] at h1
    simp at h1
  simp only [parse_ping, hping, hms, idx_eq h1, idx_eq h2, idx_eq h3, idx_eq h4,
    hloss, ebind_ok, if_pos hne, reduceIte, ne_eq, not_true_eq_false,
    not_false_eq_true]
  rfl

/-- Path 2b: a match list whose entries 1 to 5 are in the expected
positions, a loss giving nonzero availability, and rtt groups that
parse as decimals. -/
theorem parse_ping_success (r : TRec) (out now : String) (ms : List PMatch)
    (m1 m2 m3 m4 m5 : PMatch) (L : Int) (qa qb qc qd : ℚ)
    (hping : hasSubstr out "PING" = true) (hms : findAll out = ms)
    (h1 : ms.get? 1 = some m1) (h2 : ms.get? 2 = some m2)
    (h3 : ms.get? 3 = some m3) (h4 : ms.get? 4 = some m4)
    (h5 : ms.get? 5 = some m5)
    (hloss : pyInt m4.g5 = .ok L) (hz : toString (100 - L) ≠ "0")
    (ha : pyFloatDec m5.g6 = .ok qa) (hb : pyFloatDec m5.g7 = .ok qb)
    (hc : pyFloatDec m5.g8 = .ok qc) (hd : pyFloatDec m5.g9 = .ok qd) :
    parse_ping r out "" now =
      .ok { r with ip := some m1.g2, tx := some m2.g3, rx := some m3.g4,
                   avail := some (toString (100 - L)),
                   minrtt := some (toString (pyRound qa)),
                   avgrtt := some (toString (pyRound qb)),
                   maxrtt := some (toString (pyRound qc)),
                   mdev := some (toString (pyRound qd)) } := by
  have hne : ms ≠ [] := by
    intro h
    rw [h] at h1
    simp at h1
  simp only [parse_ping, hping, hms, idx_eq h1, idx_eq h2, idx_eq h3, idx_eq h4,
    idx_eq h5, hloss, ha, hb, hc, hd, ebind_ok, if_pos hne, if_neg hz,
    reduceIte, ne_eq, not_true_eq_false, not_false_eq_true]

instance {ε α : Type} [DecidableEq ε] [DecidableEq α] : DecidableEq (Except ε α) :=
  fun a b =>
    match a, b with
    | .ok x, .ok y =>
      if h : x = y then .isTrue (h ▸ rfl) else .isFalse (fun hc => h (Except.ok.inj hc))
    | .error x, .error y =>
      if h : x = y then .isTrue (h ▸ rfl) else .isFalse (fun hc => h (Except.error.inj hc))
    | .ok _, .error _ => .isFalse (fun hc => Except.noConfusion hc)
    | .error _, .ok _ => .isFalse (fun hc => Except.noConfusion hc)

/-- pyRound rounds to a nearest integer: the rounding error is at most
one half. -/
theorem pyRound_nearest (q : ℚ) : |q - (pyRound q : ℚ)| ≤ 1 / 2 := by
  simp only [pyRound]
  have hfl := Int.floor_le q
  have hfu := Int.lt_floor_add_one q
  by_cases hl : q - (⌊q⌋ : ℚ) < 1 / 2
  · rw [if_pos hl, abs_le]
    constructor <;> linarith
  · rw [if_neg hl]
    by_cases hg : 1 / 2 < q - (⌊q⌋ : ℚ)
    · rw [if_pos hg]
      push_cast
      rw [abs_le]
      constructor <;> linarith
    · rw [if_neg hg]
      have heq : q - (⌊q⌋ : ℚ) = 1 / 2 :=
        le_antisymm (not_lt.1 hg) (not_lt.1 hl)
      by_cases hp : Int.emod ⌊q⌋ 2 = 0
      · rw [if_pos hp, abs_le]
        constructor <;> linarith
      · rw [if_neg hp]
        push_cast
        rw [abs_le]
        constructor <;> linarith

/- ----------------------------------------------------------------- -/
/- Concrete values used by witnesses and counterexamples.            -/
/- ----------------------------------------------------------------- -/

/-- A ping -qc capture with zero loss (the scenario in the spec). -/
def outOk : String :=
  "PING one.one.one.one (1.1.1.1) 56(84) bytes of data.\n\n--- one.one.one.one ping statistics ---\n3 packets transmitted, 3 received, 0% packet loss, time 402ms\nrtt min/avg/max/mdev = 10.1/12.3/15.0/1.2 ms\n"

/-- A ping -qc capture with total loss: no rtt summary line is printed. -/
def outLoss : String :=
  "PING one.one.one.one (1.1.1.1) 56(84) bytes of data.\n\n--- one.one.one.one ping statistics ---\n5 packets transmitted, 0 received, 100% packet loss, time 4100ms\n\n"

/-- A config entry as read_config creates it. -/
def rEx : TRec :=
  { fqdn := "one.one.one.one", count := "5",
    lastfail := "2020-01-01 00:00:00.000000" }

/-- A cycle timestamp (a STR_DATETIME value). -/
def nowEx : String := "2021-06-01 12:00:00.000000"

/- ----------------------------------------------------------------- -/
/- Claims.                                                           -/
/- ----------------------------------------------------------------- -/

/-- Claim C10: whenever the ping subprocess wrote anything to stderr,
parse_ping takes its first branch without inspecting stdout at all
(the result is the same for every stdout value, including a fully
parseable zero-loss summary): availability 0, IP, TX, RX and all four
RTT fields UNKNOWN, and LASTFAIL advanced to the cycle timestamp. -/
theorem claim_C10 (r : TRec) (out err now : String) (h : err ≠ "") :
    parse_ping r out err now =
      .ok { r with ip := some "UNKNOWN", tx := some "UNKNOWN",
                   rx := some "UNKNOWN", avail := some "0", lastfail := now,
                   minrtt := some "UNKNOWN", avgrtt := some "UNKNOWN",
                   maxrtt := some "UNKNOWN", mdev := some "UNKNOWN" } :=
  parse_ping_err r out err now h

/-- Witness for C10: a nonempty stderr together with a stdout holding a
complete, parseable zero-loss summary. -/
theorem claim_C10_witness :
    parse_ping rEx outOk "ping: sendmsg failed" nowEx =
      .ok { rEx with ip := some "UNKNOWN", tx := some "UNKNOWN",
                     rx := some "UNKNOWN", avail := some "0", lastfail := nowEx,
                     minrtt := some "UNKNOWN", avgrtt := some "UNKNOWN",
                     maxrtt := some "UNKNOWN", mdev := some "UNKNOWN" } :=
  claim_C10 rEx outOk "ping: sendmsg failed" nowEx (by decide)

/-- Claim C2: every target whose probe output carries the expected
tokens with a reported loss of one hundred percent, and every probe
output that the pattern fails to match anywhere (with the PING marker
present and empty stderr), gets availability 0, the UNKNOWN sentinel
in all four RTT fields, and LASTFAIL set to the cycle timestamp.
Parse failure is taken as the classification at the final else of
parse_ping: the token pattern yields no match in the output. -/
theorem claim_C2 :
    (∀ (r : TRec) (out now : String) (ms : List PMatch) (m1 m2 m3 m4 : PMatch),
      hasSubstr out "PING" = true → findAll out = ms →
      ms.get? 1 = some m1 → ms.get? 2 = some m2 →
      ms.get? 3 = some m3 → ms.get? 4 = some m4 →
      pyInt m4.g5 = .ok 100 →
      parse_ping r out "" now =
        .ok { r with ip := some m1.g2, tx := some m2.g3, rx := some m3.g4,
                     avail := some "0", lastfail := now,
                     minrtt := some "UNKNOWN", avgrtt := some "UNKNOWN",
                     maxrtt := some "UNKNOWN", mdev := some "UNKNOWN" }) ∧
    (∀ (r : TRec) (out now : String),
      hasSubstr out "PING" = true → findAll out = [] →
      parse_ping r out "" now =
        .ok { r with ip := some "UNKNOWN", tx := some "UNKNOWN",
                     rx := some "UNKNOWN", avail := some "0", lastfail := now,
                     minrtt := some "UNKNOWN", avgrtt := some "UNKNOWN",
                     maxrtt := some "UNKNOWN", mdev := some "UNKNOWN" }) :=
  ⟨fun r out now ms m1 m2 m3 m4 hping hms h1 h2 h3 h4 hloss =>
    parse_ping_loss100 r out now ms m1 m2 m3 m4 hping hms h1 h2 h3 h4 hloss,
   fun r out now hping hm => parse_ping_nomatch r out now hping hm⟩

set_option maxRecDepth 100000 in
/-- Witness for C2: the hundred-percent-loss capture. -/
theorem claim_C2_witness :
    parse_ping rEx outLoss "" nowEx =
      .ok { rEx with ip := some "1.1.1.1", tx := some "5", rx := some "0",
                     avail := some "0", lastfail := nowEx,
                     minrtt := some "UNKNOWN", avgrtt := some "UNKNOWN",
                     maxrtt := some "UNKNOWN", mdev := some "UNKNOWN" } :=
  claim_C2.1 rEx outLoss nowEx (findAll outLoss)
    { g2 := "1.1.1.1" } { g3 := "5" } { g4 := "0" } { g5 := "100" }
    (by decide) rfl (by decide) (by decide) (by decide) (by decide) (by decide)

/-- Claim C3: a probe output carrying the expected tokens with a
reported loss of zero percent yields availability 100 (the string of
100 minus the loss), and leaves LASTFAIL exactly equal to its prior
value (the success branch of parse_ping never writes that key). -/
theorem claim_C3 (r : TRec) (out now : String) (ms : List PMatch)
    (m1 m2 m3 m4 m5 : PMatch) (qa qb qc qd : ℚ)
    (hping : hasSubstr out "PING" = true) (hms : findAll out = ms)
    (h1 : ms.get? 1 = some m1) (h2 : ms.get? 2 = some m2)
    (h3 : ms.get? 3 = some m3) (h4 : ms.get? 4 = some m4)
    (h5 : ms.get? 5 = some m5)
    (hloss : pyInt m4.g5 = .ok 0)
    (ha : pyFloatDec m5.g6 = .ok qa) (hb : pyFloatDec m5.g7 = .ok qb)
    (hc : pyFloatDec m5.g8 = .ok qc) (hd : pyFloatDec m5.g9 = .ok qd) :
    parse_ping r out "" now =
      .ok { r with ip := some m1.g2, tx := some m2.g3, rx := some m3.g4,
                   avail := some "100",
                   minrtt := some (toString (pyRound qa)),
                   avgrtt := some (toString (pyRound qb)),
                   maxrtt := some (toString (pyRound qc)),
                   mdev := some (toString (pyRound qd)) } ∧
    (TRec.lastfail { r with ip := some m1.g2, tx := some m2.g3,
                            rx := some m3.g4, avail := some "100",
                            minrtt := some (toString (pyRound qa)),
                            avgrtt := some (toString (pyRound qb)),
                            maxrtt := some (toString (pyRound qc)),
                            mdev := some (toString (pyRound qd)) })
      = r.lastfail :=
  ⟨parse_ping_success r out now ms m1 m2 m3 m4 m5 0 qa qb qc qd
      hping hms h1 h2 h3 h4 h5 hloss (by decide) ha hb hc hd,
   rfl⟩

set_option maxRecDepth 100000 in
/-- Witness for C3: the zero-loss capture of the spec scenario. -/
theorem claim_C3_witness :
    (parse_ping rEx outOk "" nowEx =
      .ok { rEx with ip := some "1.1.1.1", tx := some "3", rx := some "3",
                     avail := some "100",
                     minrtt := some (toString (pyRound (101 / 10 : ℚ))),
                     avgrtt := some (toString (pyRound (123 / 10 : ℚ))),
                     maxrtt := some (toString (pyRound (150 / 10 : ℚ))),
                     mdev := some (toString (pyRound (12 / 10 : ℚ))) } ∧
    TRec.lastfail { rEx with ip := some "1.1.1.1", tx := some "3",
                             rx := some "3", avail := some "100",
                             minrtt := some (toString (pyRound (101 / 10 : ℚ))),
                             avgrtt := some (toString (pyRound (123 / 10 : ℚ))),
                             maxrtt := some (toString (pyRound (150 / 10 : ℚ))),
                             mdev := some (toString (pyRound (12 / 10 : ℚ))) }
      = rEx.lastfail) ∧
    toString (pyRound (123 / 10 : ℚ)) = "12" :=
  ⟨claim_C3 rEx outOk nowEx (findAll outOk)
    { g2 := "1.1.1.1" } { g3 := "3" } { g4 := "3" } { g5 := "0" }
    { g6 := "10.1", g7 := "12.3", g8 := "15.0", g9 := "1.2" }
    (101 / 10) (123 / 10) (150 / 10) (12 / 10)
    (by decide) rfl (by decide) (by decide) (by decide) (by decide) (by decide)
    (by decide) rfl rfl rfl rfl,
   by
    norm_num [pyRound]
    rfl⟩

/-- Claim C5: on a successful parse with nonzero availability each of
the four RTT fields is the string of the matched decimal value rounded
(by the round builtin, whose result is a nearest whole number: its
distance to the exact value is at most one half), and LASTFAIL keeps
its prior value. -/
theorem claim_C5 (r : TRec) (out now : String) (ms : List PMatch)
    (m1 m2 m3 m4 m5 : PMatch) (L : Int) (qa qb qc qd : ℚ)
    (hping : hasSubstr out "PING" = true) (hms : findAll out = ms)
    (h1 : ms.get? 1 = some m1) (h2 : ms.get? 2 = some m2)
    (h3 : ms.get? 3 = some m3) (h4 : ms.get? 4 = some m4)
    (h5 : ms.get? 5 = some m5)
    (hloss : pyInt m4.g5 = .ok L) (hz : toString (100 - L) ≠ "0")
    (ha : pyFloatDec m5.g6 = .ok qa) (hb : pyFloatDec m5.g7 = .ok qb)
    (hc : pyFloatDec m5.g8 = .ok qc) (hd : pyFloatDec m5.g9 = .ok qd) :
    parse_ping r out "" now =
      .ok { r with ip := some m1.g2, tx := some m2.g3, rx := some m3.g4,
                   avail := some (toString (100 - L)),
                   minrtt := some (toString (pyRound qa)),
                   avgrtt := some (toString (pyRound qb)),
                   maxrtt := some (toString (pyRound qc)),
                   mdev := some (toString (pyRound qd)) } ∧
    |qa - (pyRound qa : ℚ)| ≤ 1 / 2 ∧ |qb - (pyRound qb : ℚ)| ≤ 1 / 2 ∧
    |qc - (pyRound qc : ℚ)| ≤ 1 / 2 ∧ |qd - (pyRound qd : ℚ)| ≤ 1 / 2 ∧
    (TRec.lastfail { r with ip := some m1.g2, tx := some m2.g3,
                            rx := some m3.g4,
                            avail := some (toString (100 - L)),
                            minrtt := some (toString (pyRound qa)),
                            avgrtt := some (toString (pyRound qb)),
                            maxrtt := some (toString (pyRound qc)),
                            mdev := some (toString (pyRound qd)) })
      = r.lastfail :=
  ⟨parse_ping_success r out now ms m1 m2 m3 m4 m5 L qa qb qc qd
      hping hms h1 h2 h3 h4 h5 hloss hz ha hb hc hd,
   pyRound_nearest qa, pyRound_nearest qb, pyRound_nearest qc,
   pyRound_nearest qd, rfl⟩

set_option maxRecDepth 100000 in
/-- Witness for C5: rtt 10.1/12.3/15.0/1.2 rounds to 10/12/15/1; in
particular the average RTT field is 12 as in the spec scenario. -/
theorem claim_C5_witness :
    (parse_ping rEx outOk "" nowEx =
      .ok { rEx with ip := some "1.1.1.1", tx := some "3", rx := some "3",
                     avail := some "100",
                     minrtt := some (toString (pyRound (101 / 10 : ℚ))),
                     avgrtt := some (toString (pyRound (123 / 10 : ℚ))),
                     maxrtt := some (toString (pyRound (150 / 10 : ℚ))),
                     mdev := some (toString (pyRound (12 / 10 : ℚ))) } ∧
    |(101 / 10 : ℚ) - (pyRound (101 / 10 : ℚ) : ℚ)| ≤ 1 / 2 ∧
    |(123 / 10 : ℚ) - (pyRound (123 / 10 : ℚ) : ℚ)| ≤ 1 / 2 ∧
    |(150 / 10 : ℚ) - (pyRound (150 / 10 : ℚ) : ℚ)| ≤ 1 / 2 ∧
    |(12 / 10 : ℚ) - (pyRound (12 / 10 : ℚ) : ℚ)| ≤ 1 / 2 ∧
    TRec.lastfail { rEx with ip := some "1.1.1.1", tx := some "3",
                             rx := some "3", avail := some "100",
                             minrtt := some (toString (pyRound (101 / 10 : ℚ))),
                             avgrtt := some (toString (pyRound (123 / 10 : ℚ))),
                             maxrtt := some (toString (pyRound (150 / 10 : ℚ))),
                             mdev := some (toString (pyRound (12 / 10 : ℚ))) }
      = rEx.lastfail) ∧
    toString (pyRound (123 / 10 : ℚ)) = "12" :=
  ⟨claim_C5 rEx outOk nowEx (findAll outOk)
    { g2 := "1.1.1.1" } { g3 := "3" } { g4 := "3" } { g5 := "0" }
    { g6 := "10.1", g7 := "12.3", g8 := "15.0", g9 := "1.2" }
    0 (101 / 10) (123 / 10) (150 / 10) (12 / 10)
    (by decide) rfl (by decide) (by decide) (by decide) (by decide) (by decide)
    (by decide) (by decide) rfl rfl rfl rfl,
   by
    norm_num [pyRound]
    rfl⟩

set_option maxRecDepth 100000 in
/-- Counterexample for C4: with the same hundred-percent-loss stdout,
the launch-error path (nonempty stderr) and the parsed-loss path give
different cycle samples: the parsed path stores the resolved IP and
the transmitted and received counts, the error path stores UNKNOWN in
those fields, so the two samples are not identical in every field. -/
theorem claim_C4_counterexample :
    parse_ping rEx outLoss "" nowEx ≠
      parse_ping rEx outLoss "ping: connect: Network is unreachable" nowEx ∧
    (parse_ping rEx outLoss "" nowEx).toOption.map TRec.ip =
      some (some "1.1.1.1") ∧
    (parse_ping rEx outLoss "ping: connect: Network is unreachable" nowEx).toOption.map
      TRec.ip = some (some "UNKNOWN") := by
  refine ⟨?_, ?_, ?_⟩ <;> decide

/-- Claim C4, amended: a probe whose process reported error output and
a probe that parses with one hundred percent loss produce cycle
samples that agree on availability, on all four RTT sentinel fields
and on the LASTFAIL update, but not on the IP, transmitted and
received fields (the loss path stores the parsed values there, the
error path stores UNKNOWN). -/
theorem claim_C4_amended (r : TRec) (out err out2 now : String)
    (ms : List PMatch) (m1 m2 m3 m4 : PMatch)
    (herr : err ≠ "")
    (hping : hasSubstr out2 "PING" = true) (hms : findAll out2 = ms)
    (h1 : ms.get? 1 = some m1) (h2 : ms.get? 2 = some m2)
    (h3 : ms.get? 3 = some m3) (h4 : ms.get? 4 = some m4)
    (hloss : pyInt m4.g5 = .ok 100) :
    ∃ ra rb, parse_ping r out err now = .ok ra ∧
      parse_ping r out2 "" now = .ok rb ∧
      ra.avail = rb.avail ∧ ra.minrtt = rb.minrtt ∧ ra.avgrtt = rb.avgrtt ∧
      ra.maxrtt = rb.maxrtt ∧ ra.mdev = rb.mdev ∧ ra.lastfail = rb.lastfail :=
  ⟨unknownFail r now, _,
   parse_ping_err r out err now herr,
   parse_ping_loss100 r out2 now ms m1 m2 m3 m4 hping hms h1 h2 h3 h4 hloss,
   rfl, rfl, rfl, rfl, rfl, rfl⟩

set_option maxRecDepth 100000 in
/-- Witness for the amended C4. -/
theorem claim_C4_amended_witness :
    ∃ ra rb,
      parse_ping rEx outOk "ping: connect: Network is unreachable" nowEx = .ok ra ∧
      parse_ping rEx outLoss "" nowEx = .ok rb ∧
      ra.avail = rb.avail ∧ ra.minrtt = rb.minrtt ∧ ra.avgrtt = rb.avgrtt ∧
      ra.maxrtt = rb.maxrtt ∧ ra.mdev = rb.mdev ∧ ra.lastfail = rb.lastfail :=
  claim_C4_amended rEx outOk "ping: connect: Network is unreachable" outLoss nowEx
    (findAll outLoss) { g2 := "1.1.1.1" } { g3 := "5" } { g4 := "0" } { g5 := "100" }
    (by decide) (by decide) rfl
    (by decide) (by decide) (by decide) (by decide) (by decide)

theorem subColon_concat (rep x : List Char) :
    subColonWith rep (x ++ [':']) = x ++ rep := by
  simp [subColonWith, List.getLast?_concat, List.dropLast_concat]

/-- Evaluation of the update command for a single-target poll
dictionary whose AVGRTT and AVAIL keys are present. -/
theorem update_cmd_singleton (R : TRec) (name cf ep ag av : String)
    (hag : R.avgrtt = some ag) (hav : R.avail = some av) :
    update_database_cmd [(name, R)] cf ep =
      .ok (subColonWith []
        (subColonWith [' ']
          ((RRDTOOL ++ " update " ++ deriveDbfile cf ++ " --template ").toList
            ++ name.toList ++ "-AVRTT:".toList ++ name.toList ++ "-AVAIL:".toList)
          ++ ep.toList ++ [':'] ++ ag.toList ++ [':'] ++ av.toList ++ [':'])) := by
  simp [update_database_cmd, keyGet, hag, hav, List.foldlM, List.foldl,
    List.append_assoc, ebind_ok]

set_option maxRecDepth 100000 in
/-- Counterexample for C1: two recovery promises the code does not
keep.  A stdout containing PING followed by a dotted quad but no full
summary makes parse_ping index past the end of the match list, raising
IndexError (the run aborts, no unknown marking happens).  A stdout
without the PING marker and empty stderr leaves the cycle sample
completely unmarked (no branch of parse_ping applies), after which
update_database raises KeyError reading the absent AVGRTT key. -/
theorem claim_C1_counterexample :
    parse_ping rEx "PING 1.2.3.4" "" nowEx = .error "IndexError" ∧
    parse_ping rEx "connect failure" "" nowEx = .ok rEx ∧
    rEx.avail = none ∧
    update_database_cmd [("Cloudflare", rEx)] "mhag.json" "1600000000" =
      .error "KeyError" := by
  refine ⟨?_, ?_, ?_, ?_⟩ <;> decide

/-- Claim C1, amended: of the parse failures, exactly the case where
stdout contains the PING marker but the token pattern matches nothing
is recovered locally within the cycle: the sample is marked unknown
and unavailable (availability 0, UNKNOWN in the RTT fields), nothing
is raised, and the subsequent database update command carries the
UNKNOWN sentinel and availability 0 for the target.  (A launch error
reported on stderr is likewise recovered, per C10.)  Stdout without
the PING marker leaves the sample unmarked and the database update
raises KeyError, and a partial pattern match raises IndexError or
ValueError, aborting the run, as the counterexample shows. -/
theorem claim_C1_amended (r : TRec) (out now name cf ep : String)
    (hping : hasSubstr out "PING" = true) (hm : findAll out = []) :
    parse_ping r out "" now = .ok (unknownFail r now) ∧
    ∃ pre, update_database_cmd [(name, unknownFail r now)] cf ep =
      .ok (pre ++ (":UNKNOWN:0").toList) := by
  refine ⟨parse_ping_nomatch r out now hping hm,
    (RRDTOOL ++ " update " ++ deriveDbfile cf ++ " --template ").toList
      ++ name.toList ++ "-AVRTT:".toList ++ name.toList ++ "-AVAIL".toList
      ++ [' '] ++ ep.toList, ?_⟩
  rw [update_cmd_singleton (unknownFail r now) name cf ep "UNKNOWN" "0" rfl rfl]
  have e1 : ("-AVAIL:" : String).toList = ("-AVAIL" : String).toList ++ [':'] := rfl
  have e2 : ((":UNKNOWN:0") : String).toList
      = [':'] ++ ("UNKNOWN" : String).toList ++ [':'] ++ ("0" : String).toList := rfl
  rw [e1, ← List.append_assoc]
  rw [subColon_concat, subColon_concat]
  rw [e2]
  simp [List.append_assoc]

set_option maxRecDepth 100000 in
/-- Witness for the amended C1: stdout consisting of the bare marker. -/
theorem claim_C1_amended_witness :
    parse_ping rEx "PING" "" nowEx = .ok (unknownFail rEx nowEx) ∧
    ∃ pre, update_database_cmd
        [("Cloudflare", unknownFail rEx nowEx)] "mhag.json" "1600000000" =
      .ok (pre ++ (":UNKNOWN:0").toList) :=
  claim_C1_amended rEx "PING" nowEx "Cloudflare" "mhag.json" "1600000000"
    (by decide) (by decide)

theorem replaceAux_nil (old new : List Char) (fuel : Nat) :
    replaceAux old new fuel [] = [] := by
  cases fuel <;> simp [replaceAux]

/-- A pattern without a dot that matches no head of l matches no head
of l extended past a dot either. -/
theorem pref_dot (pat : List Char) (hdot : ('.' : Char) ∉ pat) :
    ∀ l m : List Char, pat.isPrefixOf l = false →
      pat.isPrefixOf (l ++ '.' :: m) = false := by
  induction pat with
  | nil =>
    intro l m h
    simp [List.isPrefixOf] at h
  | cons p ps ih =>
    intro l m h
    have hpd : p ≠ '.' := by
      intro he
      exact hdot (he ▸ List.mem_cons_self p ps)
    cases l with
    | nil =>
      simp [List.isPrefixOf]
      intro he
      exact absurd he hpd
    | cons a l' =>
      simp only [List.cons_append, List.isPrefixOf, List.append_eq] at h ⊢
      rcases Bool.and_eq_false_iff.mp h with hpa | hps
      · rw [hpa]
        simp
      · rw [ih (fun hm => hdot (List.mem_cons_of_mem p hm)) l' m hps]
        simp

/-- str.replace on a string of the form stem dot json, when the stem
holds no occurrence of json: only the extension is rewritten. -/
theorem replaceAux_stem :
    ∀ (fuel : Nat) (l : List Char), l.length + 2 ≤ fuel →
      hasSub ("json".toList) l = false →
      replaceAux ("json".toList) ("rrd".toList) fuel (l ++ '.' :: "json".toList)
        = l ++ '.' :: "rrd".toList := by
  intro fuel
  induction fuel with
  | zero =>
    intro l hl hs
    omega
  | succ f ih =>
    intro l hl hs
    cases l with
    | nil =>
      obtain ⟨f', rfl⟩ : ∃ f', f = f' + 1 := by
        cases f with
        | zero => omega
        | succ k => exact ⟨k, rfl⟩
      have c1 : ("json".toList).isPrefixOf
          ('.' :: 'j' :: 's' :: 'o' :: 'n' :: ([] : List Char)) = false := by decide
      have c2 : ("json".toList).isPrefixOf
          ('j' :: 's' :: 'o' :: 'n' :: ([] : List Char)) = true := by decide
      simp only [List.nil_append]
      rw [show ('.' :: "json".toList)
          = '.' :: 'j' :: 's' :: 'o' :: 'n' :: ([] : List Char) from rfl]
      simp [replaceAux, c1, c2, replaceAux_nil, List.drop]
    | cons c l' =>
      simp only [hasSub] at hs
      rcases Bool.or_eq_false_iff.mp hs with ⟨h1, h2⟩
      have h3 : List.isPrefixOf ("json".toList)
          (c :: (l' ++ '.' :: "json".toList)) = false := by
        have hp := pref_dot ("json".toList) (by decide) (c :: l') ("json".toList) h1
        simpa using hp
      simp only [List.cons_append, List.append_eq, replaceAux, h3,
        Bool.false_eq_true, if_false]
      rw [ih l' (by simp at hl; omega) h2]

/-- Counterexample for C7: the database path is built with
str.replace, which substitutes every occurrence of json, not only the
extension: for the name jsonhosts.json the characters of the stem are
changed too, so the result differs from the claimed jsonhosts.rrd. -/
theorem claim_C7_counterexample :
    deriveDbfile "jsonhosts.json" = "rrdhosts.rrd" ∧
    deriveDbfile "jsonhosts.json" ≠ "jsonhosts" ++ ".rrd" := by
  refine ⟨?_, ?_⟩ <;> decide

/-- Claim C7, amended: for every configuration filename whose only
occurrence of the substring json is the final dot-json extension, the
database path is the name with that extension replaced by dot-rrd and
every other character unchanged; in general the code replaces every
occurrence of json in the name by rrd. -/
theorem claim_C7_amended (stem : String) (h : hasSubstr stem "json" = false) :
    deriveDbfile (stem ++ ".json") = stem ++ ".rrd" := by
  have hl : (stem ++ ".json").toList = stem.toList ++ '.' :: "json".toList := rfl
  have hlen : (stem ++ ".json").length = stem.toList.length + 5 := by
    simp [String.length_append]
    rfl
  show String.mk (replaceAux "json".toList "rrd".toList
      (stem ++ ".json").length ((stem ++ ".json").toList)) = stem ++ ".rrd"
  rw [hl, hlen, replaceAux_stem (stem.toList.length + 5) stem.toList (by omega) h]
  rfl

/-- Witness for the amended C7: the default configuration name. -/
theorem claim_C7_amended_witness :
    deriveDbfile ("mhag" ++ ".json") = "mhag" ++ ".rrd" :=
  claim_C7_amended "mhag" (by decide)


/-- pyRound is the identity on integers. -/
theorem pyRound_intCast (z : ℤ) : pyRound ((z : ℚ)) = z := by
  simp [pyRound]

/-- The rational floor of a quotient of naturals is natural division. -/
theorem floor_natCast_div (a N : ℕ) :
    ⌊(a : ℚ) / (N : ℚ)⌋ = ((a / N : ℕ) : ℤ) := by
  have h := Rat.floor_intCast_div_natCast (a : ℤ) N
  push_cast at h
  rw [h]
  exact (Int.ofNat_tdiv a N).symm

/-- The remainder identity behind the Python modulo on exact values. -/
theorem sub_mul_floor_eq_mod (a N : ℕ) :
    (a : ℚ) - (N : ℚ) * ((a / N : ℕ) : ℚ) = ((a % N : ℕ) : ℚ) := by
  have hd : a = N * (a / N) + a % N := (Nat.div_add_mod a N).symm
  have h2 : (a : ℚ) = (N : ℚ) * ((a / N : ℕ) : ℚ) + ((a % N : ℕ) : ℚ) := by
    exact_mod_cast hd
  linarith

/-- calc_uptime's divmod chain over exact values, re-expressed as the
direct decomposition of the elapsed microseconds into 12-hour blocks,
hours within a block, minutes and (fractional) seconds: each unit is
printed exactly when nonzero, and the string ends with a period. -/
theorem calc_uptime_decomp (now lf : ℤ) (dm d h m : ℕ) (s : ℚ)
    (hdm : dm = (now - lf).natAbs)
    (hd : d = dm / 60000000 / 60 / 12)
    (hh : h = dm / 60000000 / 60 % 12)
    (hm : m = dm / 60000000 % 60)
    (hs : s = ((dm % 60000000 : ℕ) : ℚ) / 1000000) :
    calc_uptime_str now lf =
      fmtHMS now ++ " UP (since last ping fail) for "
        ++ (if 0 < d then toString d ++ " days, " else "")
        ++ (if 0 < h then toString h ++ " hours, " else "")
        ++ (if 0 < m then toString m ++ " minutes, " else "")
        ++ (if 0 < s then toString (pyRound s) ++ " seconds" else "")
        ++ "." := by
  have tns : ∀ k : ℕ, toString ((k : ℤ)) = toString k := fun k => rfl
  simp only [calc_uptime_str, qDivMod]
  rw [← hdm]
  have e1 : (dm : ℚ) / 1000000 / 60 = (dm : ℚ) / ((60000000 : ℕ) : ℚ) := by
    push_cast
    ring
  rw [e1, floor_natCast_div]
  simp only [Int.cast_natCast]
  have e3 : ((dm / 60000000 : ℕ) : ℚ) / 60
      = ((dm / 60000000 : ℕ) : ℚ) / ((60 : ℕ) : ℚ) := by
    norm_num
  rw [e3, floor_natCast_div]
  simp only [Int.cast_natCast]
  have e5 : ((dm / 60000000 / 60 : ℕ) : ℚ) / 12
      = ((dm / 60000000 / 60 : ℕ) : ℚ) / ((12 : ℕ) : ℚ) := by
    norm_num
  rw [e5, floor_natCast_div]
  simp only [Int.cast_natCast]
  have e2 : (dm : ℚ) / 1000000 - 60 * ((dm / 60000000 : ℕ) : ℚ) = s := by
    rw [hs]
    have h2 := sub_mul_floor_eq_mod dm 60000000
    have h3 : (dm : ℚ) / 1000000 - 60 * ((dm / 60000000 : ℕ) : ℚ)
        = ((dm : ℚ) - ((60000000 : ℕ) : ℚ) * ((dm / 60000000 : ℕ) : ℚ)) / 1000000 := by
      rw [show ((60000000 : ℕ) : ℚ) = 60000000 from by norm_num]
      ring
    rw [h3, h2]
  rw [e2]
  have e4 : ((dm / 60000000 : ℕ) : ℚ) - 60 * ((dm / 60000000 / 60 : ℕ) : ℚ)
      = ((m : ℕ) : ℚ) := by
    rw [hm]
    have h2 := sub_mul_floor_eq_mod (dm / 60000000) 60
    rw [show ((60 : ℕ) : ℚ) = 60 from by norm_num] at h2
    linarith
  rw [e4]
  have e6 : ((dm / 60000000 / 60 : ℕ) : ℚ) - 12 * ((dm / 60000000 / 60 / 12 : ℕ) : ℚ)
      = ((h : ℕ) : ℚ) := by
    rw [hh]
    have h2 := sub_mul_floor_eq_mod (dm / 60000000 / 60) 12
    rw [show ((12 : ℕ) : ℚ) = 12 from by norm_num] at h2
    linarith
  rw [e6, ← hd]
  have p1 : pyRound ((d : ℕ) : ℚ) = ((d : ℕ) : ℤ) := by
    have hp := pyRound_intCast ((d : ℕ) : ℤ)
    push_cast at hp
    exact hp
  have p2 : pyRound ((h : ℕ) : ℚ) = ((h : ℕ) : ℤ) := by
    have hp := pyRound_intCast ((h : ℕ) : ℤ)
    push_cast at hp
    exact hp
  have p3 : pyRound ((m : ℕ) : ℚ) = ((m : ℕ) : ℤ) := by
    have hp := pyRound_intCast ((m : ℕ) : ℤ)
    push_cast at hp
    exact hp
  simp only [p1, p2, p3, tns, Nat.cast_pos]

/-- Concrete uptime string five seconds after a failure. -/
theorem uptime_eval_5 : calc_uptime_str 1577836805000000 1577836800000000
    = "00:00:05 UP (since last ping fail) for 5 seconds." := by
  rw [calc_uptime_decomp 1577836805000000 1577836800000000 5000000 0 0 0
      (((5000000 % 60000000 : ℕ) : ℚ) / 1000000)
      (by decide) (by decide) (by decide) (by decide) rfl]
  norm_num [pyRound]
  decide

/-- Concrete uptime string ten seconds after a failure. -/
theorem uptime_eval_10 : calc_uptime_str 1577836810000000 1577836800000000
    = "00:00:10 UP (since last ping fail) for 10 seconds." := by
  rw [calc_uptime_decomp 1577836810000000 1577836800000000 10000000 0 0 0
      (((10000000 % 60000000 : ℕ) : ℚ) / 1000000)
      (by decide) (by decide) (by decide) (by decide) rfl]
  norm_num [pyRound]
  decide

/-- Counterexample for C6: two cycles with identical external-tool
outputs but run at different wall-clock times persist different UPTIME
strings (the string embeds the current clock and the elapsed time), so
last_poll_timestamp is not the only differing persisted field. -/
theorem claim_C6_counterexample :
    cycle_persist rEx "S" 1577836805000000 =
      .ok { rEx with lastpoll := some "S",
                     uptime := some "00:00:05 UP (since last ping fail) for 5 seconds." } ∧
    cycle_persist rEx "S" 1577836810000000 =
      .ok { rEx with lastpoll := some "S",
                     uptime := some "00:00:10 UP (since last ping fail) for 10 seconds." } ∧
    ("00:00:05 UP (since last ping fail) for 5 seconds." : String) ≠
      "00:00:10 UP (since last ping fail) for 10 seconds." := by
  have hp : strptimeLastfail rEx.lastfail = some 1577836800000000 := by decide
  refine ⟨?_, ?_, by decide⟩
  · simp [cycle_persist, hp, uptime_eval_5]
  · simp [cycle_persist, hp, uptime_eval_10]

/-- Claim C6, amended: running a cycle twice with identical external
tool outputs produces identical persisted Target fields except for
last_poll_timestamp and the uptime display string (which is recomputed
from the current clock each cycle and so generally differs); in
particular the persisted last-failure field and the FQDN, COUNT and
sample fields are identical.  Probe outputs do not appear as arguments
because parse_ping mutates only the transient poll copy: no persisted
field depends on them. -/
theorem claim_C6_amended (r : TRec) (s1 s2 : String) (n1 n2 : ℤ) (r1 r2 : TRec)
    (h1 : cycle_persist r s1 n1 = .ok r1) (h2 : cycle_persist r s2 n2 = .ok r2) :
    r1.fqdn = r2.fqdn ∧ r1.count = r2.count ∧ r1.lastfail = r2.lastfail ∧
    r1.ip = r2.ip ∧ r1.tx = r2.tx ∧ r1.rx = r2.rx ∧ r1.avail = r2.avail ∧
    r1.minrtt = r2.minrtt ∧ r1.avgrtt = r2.avgrtt ∧ r1.maxrtt = r2.maxrtt ∧
    r1.mdev = r2.mdev := by
  unfold cycle_persist at h1 h2
  cases hp : strptimeLastfail r.lastfail with
  | none =>
    rw [hp] at h1
    exact absurd h1 (by simp)
  | some lf =>
    rw [hp] at h1 h2
    have e1 := Except.ok.inj h1
    have e2 := Except.ok.inj h2
    rw [← e1, ← e2]
    simp

/-- The persisted entry after a cycle at the first timestamp. -/
def rC6A : TRec :=
  { rEx with lastpoll := some "A",
             uptime := some "00:00:05 UP (since last ping fail) for 5 seconds." }

/-- The persisted entry after a cycle at the second timestamp. -/
def rC6B : TRec :=
  { rEx with lastpoll := some "B",
             uptime := some "00:00:10 UP (since last ping fail) for 10 seconds." }

/-- Witness for the amended C6: cycles five and ten seconds after the
stored failure time. -/
theorem claim_C6_amended_witness :
    rC6A.fqdn = rC6B.fqdn ∧ rC6A.count = rC6B.count ∧
    rC6A.lastfail = rC6B.lastfail ∧ rC6A.ip = rC6B.ip ∧ rC6A.tx = rC6B.tx ∧
    rC6A.rx = rC6B.rx ∧ rC6A.avail = rC6B.avail ∧ rC6A.minrtt = rC6B.minrtt ∧
    rC6A.avgrtt = rC6B.avgrtt ∧ rC6A.maxrtt = rC6B.maxrtt ∧
    rC6A.mdev = rC6B.mdev :=
  claim_C6_amended rEx "A" "B" 1577836805000000 1577836810000000 rC6A rC6B
    (by
      have hp : strptimeLastfail rEx.lastfail = some 1577836800000000 := by decide
      simp [cycle_persist, hp, uptime_eval_5, rC6A])
    (by
      have hp : strptimeLastfail rEx.lastfail = some 1577836800000000 := by decide
      simp [cycle_persist, hp, uptime_eval_10, rC6B])

/-- Claim C9: the per-cycle uptime string is computed from the elapsed
wall-clock time since the last failure decomposed into 12-hour blocks
(the variable the code calls days), hours within a block, minutes and
seconds; every unit whose value is zero is omitted; and the string is
terminated with a period.  (The hypotheses name the decomposition; the
string also carries the fixed clock prefix the code prepends.) -/
theorem claim_C9 (now lf : ℤ) (dm d h m : ℕ) (s : ℚ)
    (hdm : dm = (now - lf).natAbs)
    (hd : d = dm / 60000000 / 60 / 12)
    (hh : h = dm / 60000000 / 60 % 12)
    (hm : m = dm / 60000000 % 60)
    (hs : s = ((dm % 60000000 : ℕ) : ℚ) / 1000000) :
    calc_uptime_str now lf =
      fmtHMS now ++ " UP (since last ping fail) for "
        ++ (if 0 < d then toString d ++ " days, " else "")
        ++ (if 0 < h then toString h ++ " hours, " else "")
        ++ (if 0 < m then toString m ++ " minutes, " else "")
        ++ (if 0 < s then toString (pyRound s) ++ " seconds" else "")
        ++ "." :=
  calc_uptime_decomp now lf dm d h m s hdm hd hh hm hs

/-- Witness for C9: two 12-hour blocks, three hours, four minutes and
5.4 seconds; the zero-valued units of the five-second example above
are exercised by the C6 evaluation lemmas. -/
theorem claim_C9_witness :
    calc_uptime_str 1577934245400000 1577836800000000 =
      "03:04:05 UP (since last ping fail) for 2 days, 3 hours, 4 minutes, 5 seconds." := by
  rw [claim_C9 1577934245400000 1577836800000000 97445400000 2 3 4
      (((97445400000 % 60000000 : ℕ) : ℚ) / 1000000)
      (by decide) (by decide) (by decide) (by decide) rfl]
  norm_num [pyRound]
  decide

/-- Bind of an error in the Except monad. -/
theorem ebind_err {α β : Type} (e : String) (f : α → Except String β) :
    (Except.error e >>= f) = Except.error e := rfl

/-- Decoding inverts encoding on attribute lists. -/
theorem decAttrList_enc (a : List (String × String)) :
    decAttrList (a.map fun p => (p.1, J.s p.2)) = some a := by
  induction a with
  | nil => rfl
  | cons p rest ih =>
    simp [decAttrList, ih]

/-- Decoding inverts encoding on attribute dictionaries. -/
theorem decodeAttrs_enc (a : List (String × String)) :
    decodeAttrs (encodeAttrs a) = some a := by
  simp [decodeAttrs, encodeAttrs, decAttrList_enc]

/-- Decoding inverts encoding on section entry lists. -/
theorem decSecList_enc (t : List (String × List (String × String))) :
    decSecList (t.map fun p => (p.1, encodeAttrs p.2)) = some t := by
  induction t with
  | nil => rfl
  | cons p rest ih =>
    simp [decSecList, decodeAttrs_enc, ih]

/-- Decoding inverts encoding on sections. -/
theorem decodeSection_enc (t : List (String × List (String × String))) :
    decodeSection (encodeSection t) = some t := by
  simp [decodeSection, encodeSection, decSecList_enc]

/-- Membership after insertion. -/
theorem mem_insertByFst {α : Type} (a x : Int × α) (l : List (Int × α)) :
    x ∈ insertByFst a l ↔ x = a ∨ x ∈ l := by
  induction l with
  | nil => simp [insertByFst]
  | cons b t ih =>
    by_cases hab : a.1 ≤ b.1
    · simp [insertByFst, hab]
    · simp only [insertByFst, hab, if_false]
      simp [ih]
      tauto

/-- Insertion permutes. -/
theorem insertByFst_perm {α : Type} (a : Int × α) (l : List (Int × α)) :
    (insertByFst a l).Perm (a :: l) := by
  induction l with
  | nil => simp [insertByFst]
  | cons b t ih =>
    by_cases hab : a.1 ≤ b.1
    · simp [insertByFst, hab]
    · rw [insertByFst, if_neg hab]
      exact ((ih.cons b).trans (List.Perm.swap a b t))

/-- Insertion preserves weak sortedness by first component. -/
theorem pairwise_insertByFst {α : Type} (a : Int × α) (l : List (Int × α))
    (h : l.Pairwise (fun x y => x.1 ≤ y.1)) :
    (insertByFst a l).Pairwise (fun x y => x.1 ≤ y.1) := by
  induction l with
  | nil => simp [insertByFst]
  | cons b t ih =>
    rcases List.pairwise_cons.mp h with ⟨hb, ht⟩
    by_cases hab : a.1 ≤ b.1
    · rw [insertByFst, if_pos hab]
      refine List.pairwise_cons.mpr ⟨?_, h⟩
      intro x hx
      rcases List.mem_cons.mp hx with rfl | hm
      · exact hab
      · exact le_trans hab (hb x hm)
    · rw [insertByFst, if_neg hab]
      refine List.pairwise_cons.mpr ⟨?_, ih ht⟩
      intro x hx
      rcases (mem_insertByFst a x t).mp hx with rfl | hm
      · exact le_of_not_le hab
      · exact hb x hm

/-- The sort is a permutation. -/
theorem sortByFst_perm {α : Type} (l : List (Int × α)) :
    (sortByFst l).Perm l := by
  induction l with
  | nil => simp [sortByFst]
  | cons a t ih =>
    exact (insertByFst_perm a (sortByFst t)).trans (ih.cons a)

/-- The sort is weakly ascending in the first component. -/
theorem sortByFst_pairwise {α : Type} (l : List (Int × α)) :
    (sortByFst l).Pairwise (fun x y => x.1 ≤ y.1) := by
  induction l with
  | nil => simp [sortByFst]
  | cons a t ih =>
    exact pairwise_insertByFst a (sortByFst t) ih

/-- A successful keying pass keeps the entries and records each key. -/
theorem keyGfx_ok (gfx : List (String × List (String × String)))
    (keyed : List (Int × (String × List (String × String))))
    (h : keyGfx gfx = .ok keyed) :
    keyed.map Prod.snd = gfx ∧ ∀ x ∈ keyed, stepKey x.2.2 = .ok x.1 := by
  induction gfx generalizing keyed with
  | nil =>
    simp [keyGfx] at h
    subst h
    simp
  | cons p rest ih =>
    rw [keyGfx] at h
    cases hk : stepKey p.2 with
    | error e =>
      rw [hk, ebind_err] at h
      exact Except.noConfusion h
    | ok k =>
      rw [hk, ebind_ok] at h
      cases hr : keyGfx rest with
      | error e =>
        rw [hr, ebind_err] at h
        exact Except.noConfusion h
      | ok tl =>
        rw [hr, ebind_ok] at h
        have hinj := Except.ok.inj h
        subst hinj
        rcases ih tl hr with ⟨hmap, hall⟩
        constructor
        · simp [hmap]
        · intro x hx
          rcases List.mem_cons.mp hx with rfl | hm
          · exact hk
          · exact hall x hm

/-- Total version of the step sort key, used to state sortedness; it
agrees with stepKey wherever the latter succeeds. -/
def stepKeyD (g : List (String × String)) : Int :=
  match stepKey g with
  | .ok k => k
  | .error _ => 0

/-- Claim C8: serializing the configuration (the Target set and the
Graph Interval Definition set) and deserializing it again reproduces
the identical Target list and a Graph Interval Definition list that is
a permutation of the original (the identical set), and the serialized
Graph Interval Definitions are ordered weakly ascending by their
integer step size. -/
theorem claim_C8 (cfg gfx : List (String × List (String × String))) (j : J)
    (henc : write_config_json cfg gfx = .ok j) :
    ∃ g', read_config_json j = some (cfg, g') ∧ g'.Perm gfx ∧
      g'.Pairwise (fun x y => stepKeyD x.2 ≤ stepKeyD y.2) := by
  unfold write_config_json gfxprm_sort at henc
  cases hk : keyGfx gfx with
  | error e =>
    rw [hk, ebind_err] at henc
    exact Except.noConfusion henc
  | ok keyed =>
    rw [hk, ebind_ok] at henc
    have hj := Except.ok.inj henc
    subst hj
    rcases keyGfx_ok gfx keyed hk with ⟨hmap, hall⟩
    refine ⟨(sortByFst keyed).map Prod.snd, ?_, ?_, ?_⟩
    · simp [read_config_json, decodeSection_enc]
    · exact (List.Perm.map Prod.snd (sortByFst_perm keyed)).trans (by rw [hmap])
    · have hp := sortByFst_pairwise keyed
      have hmem : ∀ x ∈ sortByFst keyed, stepKey x.2.2 = .ok x.1 :=
        fun x hx => hall x ((sortByFst_perm keyed).mem_iff.mp hx)
      rw [List.pairwise_map]
      refine hp.imp_of_mem ?_
      intro a b ha hb hle
      have ea : stepKeyD a.2.2 = a.1 := by
        simp [stepKeyD, hmem a ha]
      have eb : stepKeyD b.2.2 = b.1 := by
        simp [stepKeyD, hmem b hb]
      rw [ea, eb]
      exact hle

/-- The default Target set read_config synthesizes (dt stands for the
STR_DATETIME value). -/
def default_targets (dt : String) : List (String × List (String × String)) :=
  [("Cloudflare", [("FQDN", "one.one.one.one"), ("COUNT", "5"), ("LASTFAIL", dt)]),
   ("Google", [("FQDN", "google-public-dns-a.google.com"), ("COUNT", "5"), ("LASTFAIL", dt)]),
   ("OpenDNS", [("FQDN", "resolver1.opendns.com"), ("COUNT", "5"), ("LASTFAIL", dt)])]

/-- The default Graph Interval Definition set read_config synthesizes
(already listed in ascending step order). -/
def default_gfx : List (String × List (String × String)) :=
  [("1mx12h", [("rra", "LAST"), ("interval", "1m"), ("duration", "12h"),
               ("step", "60"), ("xgrid", "MINUTE:5:MINUTE:15:HOUR:2")]),
   ("5mx24h", [("rra", "AVERAGE"), ("interval", "5m"), ("duration", "24h"),
               ("step", "300"), ("xgrid", "MINUTE:5:MINUTE:15:HOUR:4")]),
   ("30mx7d", [("rra", "AVERAGE"), ("interval", "30m"), ("duration", "7d"),
               ("step", "1800"), ("xgrid", "MINUTE:30:HOUR:4:HOUR:24")]),
   ("2hx28d", [("rra", "AVERAGE"), ("interval", "2h"), ("duration", "28d"),
               ("step", "7200"), ("xgrid", "HOUR:2:DAY:1:DAY:7")]),
   ("1dx365d", [("rra", "AVERAGE"), ("interval", "1d"), ("duration", "365d"),
                ("step", "86400"), ("xgrid", "HOUR:24:DAY:7:DAY:30")])]

/-- Witness for C8: the default configuration round trips. -/
theorem claim_C8_witness :
    ∃ g', read_config_json
        (J.arr [encodeSection (default_targets nowEx), encodeSection default_gfx])
        = some (default_targets nowEx, g') ∧
      g'.Perm default_gfx ∧
      g'.Pairwise (fun x y => stepKeyD x.2 ≤ stepKeyD y.2) :=
  claim_C8 (default_targets nowEx) default_gfx _ rfl
end MHAG
